import Mathlib

/-
Shallow embedding of the Go package `optional`
(Palladium-blockchain/go-optional, src/pkg/optional/optional.go).

The Go type `Optional[T]` is a struct with a value slot and a presence
flag.  Go generics give every type `T` a zero value (`*new(T)`), and the
JSON layer delegates to `encoding/json` for the element type.  We bundle
the zero value and the element codec into a `GoType` record; Go errors
are modelled by an abstract error type `E`, pointers `*T` by `Option T`,
and `[]byte` data by `String` (the bytes the code compares against are
all ASCII, so byte-level and character-level filtering agree).
-/

namespace optional

/-- `Optional[T]`: `value T; hasValue bool` (optional.go lines 5-8). -/
structure Optional (T : Type) where
  value : T
  hasValue : Bool
deriving DecidableEq

/-- The capabilities Go supplies for an element type `T`: its zero value
(`*new(T)`) and its `encoding/json` marshal/unmarshal pair, with error
type `E`. -/
structure GoType (T : Type) (E : Type) where
  zero : T
  marshal : T → Except E String
  unmarshal : String → Except E T

variable {T E : Type}

/-- `New` (optional.go lines 10-15). -/
def New (value : T) : Optional T :=
  { value := value, hasValue := true }

/-- `FromPtr` (optional.go lines 17-28); a Go `*T` argument is `Option T`. -/
def FromPtr (g : GoType T E) (value : Option T) : Optional T :=
  match value with
  | none => { value := g.zero, hasValue := false }
  | some v => { value := v, hasValue := true }

/-- `Empty` (optional.go lines 30-32): the zero-initialized struct
`Optional[T]{}`, i.e. zero value in the slot and `false` presence. -/
def Empty (g : GoType T E) : Optional T :=
  { value := g.zero, hasValue := false }

/-- `IsEmpty` (optional.go lines 34-36). -/
def IsEmpty (o : Optional T) : Bool :=
  !o.hasValue

/-- `Get` (optional.go lines 38-40). -/
def Get (o : Optional T) : T × Bool :=
  (o.value, o.hasValue)

/-- `ToPtr` (optional.go lines 43-49), value-level view: `nil` is `none`,
a non-nil pointer to a copy of the value is `some value`. -/
def ToPtr (o : Optional T) : Option T :=
  if !o.hasValue then none else some o.value

/-- `Or` (optional.go lines 51-56). -/
def Or (o : Optional T) (value : T) : T :=
  if !o.hasValue then value else o.value

/-- `Set` (optional.go lines 58-61): pointer-receiver mutation, modelled
by returning the updated struct. -/
def Set (o : Optional T) (value : T) : Optional T :=
  { o with hasValue := true, value := value }

/-- `Unset` (optional.go lines 63-66): clears the presence flag and
resets the slot to the zero value `*new(T)`. -/
def Unset (g : GoType T E) (o : Optional T) : Optional T :=
  { o with hasValue := false, value := g.zero }

/-- `MarshalJSON` (optional.go lines 70-75). -/
def MarshalJSON (g : GoType T E) (o : Optional T) : Except E String :=
  if !o.hasValue then .ok "null" else g.marshal o.value

/-- The bytes the `UnmarshalJSON` trim loop removes (optional.go line 93):
space, newline, carriage return, tab. -/
def isInsignificantSpace (b : Char) : Bool :=
  b == ' ' || b == '\n' || b == '\r' || b == '\t'

/-- The `trimmed` buffer built by `UnmarshalJSON` (optional.go lines
91-96): every occurrence of the four whitespace bytes is dropped,
wherever it appears in the input. -/
def stripJSONSpace (data : String) : String :=
  String.mk (data.toList.filter (fun b => !isInsignificantSpace b))

/-- `UnmarshalJSON` body after the nil-receiver guard (optional.go lines
85-108): fast-path exact `null` match, then the whitespace-stripped
comparison, then delegation to the element codec.  Returns the updated
receiver and the error value (`none` = Go `nil` error). -/
def UnmarshalJSON (g : GoType T E) (o : Optional T) (data : String) :
    Optional T × Option E :=
  if data.length = 4 ∧ data = "null" then
    (Unset g o, none)
  else if stripJSONSpace data = "null" then
    (Unset g o, none)
  else
    match g.unmarshal data with
    | .error err => (o, some err)
    | .ok v => (Set o v, none)

/-- `UnmarshalJSON` including the nil-receiver guard (optional.go lines
79-83): the receiver is a Go pointer, modelled as `Option (Optional T)`;
a nil receiver returns immediately with a `nil` error and no mutation. -/
def UnmarshalJSONPtr (g : GoType T E) (recv : Option (Optional T))
    (data : String) : Option (Optional T) × Option E :=
  match recv with
  | none => (none, none)
  | some o =>
    let r := UnmarshalJSON g o data
    (some r.1, r.2)

/-- The spec sentence's reading of the null check, written from the
spec's words for comparison with the code's `stripJSONSpace`: remove the
whitespace characters only from around the token, i.e. strip leading and
trailing whitespace and nothing else. -/
def trimEdgesSpec (s : String) : String :=
  String.mk
    (((s.toList.dropWhile isInsignificantSpace).reverse.dropWhile
        isInsignificantSpace).reverse)

/-- The invariant of §3 of the spec: an absent container holds the zero
value in its slot. -/
def Inv (g : GoType T E) (o : Optional T) : Prop :=
  o.hasValue = false → o.value = g.zero

/-- A flat store of `T` cells; a Go pointer into the store is a cell
index.  Used to state the copy (non-aliasing) semantics of `ToPtr`. -/
structure Mem (T : Type) where
  cells : List T
deriving DecidableEq

/-- Allocation of a fresh cell (what `v := o.value; return &v` does):
the cell is appended to the store and its address returned. -/
def Mem.alloc (m : Mem T) (v : T) : Mem T × Nat :=
  ({ cells := m.cells ++ [v] }, m.cells.length)

/-- Store `w` through pointer `p`. -/
def Mem.write (m : Mem T) (p : Nat) (w : T) : Mem T :=
  { cells := m.cells.set p w }

/-- Load through pointer `p`; `z` is the zero value, returned only for a
dangling pointer, which the model never produces. -/
def Mem.read (z : T) (m : Mem T) (p : Nat) : T :=
  m.cells.getD p z

/-- A container whose value slot is itself addressable: `slot` is the
address of the `value` field inside the store. -/
structure StoredOptional where
  slot : Nat
  hasValue : Bool
deriving DecidableEq

/-- `ToPtr` (optional.go lines 43-49) against an addressable container:
if absent, the nil pointer; otherwise the slot is read, copied into a
fresh cell (`v := o.value`), and that fresh cell's address is returned
(`&v`). -/
def ToPtrMem (g : GoType T E) (m : Mem T) (s : StoredOptional) :
    Mem T × Option Nat :=
  if !s.hasValue then (m, none)
  else
    let v := Mem.read g.zero m s.slot
    let r := Mem.alloc m v
    (r.1, some r.2)

/-- Digit accumulation for the modelled integer decoder. -/
def digitsToNat (ds : List Char) : Nat :=
  ds.foldl (fun n c => n * 10 + (c.toNat - Char.toNat '0')) 0

/-- Decimal integer literal recognizer used by the modelled codec. -/
def parseIntLit (s : String) : Option Int :=
  match s.toList with
  | [] => none
  | c :: cs =>
    if c = '-' then
      if cs ≠ [] ∧ cs.all Char.isDigit then some (-(digitsToNat cs : Int))
      else none
    else if (c :: cs).all Char.isDigit then some (digitsToNat (c :: cs) : Int)
    else none

/-- Models Go `encoding/json` for the element type `*int` (a nullable
integer): a nil pointer marshals to the token `null`, the token `null`
unmarshals to a nil pointer, an integer literal round-trips through the
pointee, and anything else is a decode error. -/
def goJSONOptionInt : GoType (Option Int) String :=
  { zero := none
    marshal := fun v =>
      match v with
      | none => .ok "null"
      | some n => .ok (toString n)
    unmarshal := fun s =>
      if s = "null" then .ok none
      else
        match parseIntLit s with
        | some n => .ok (some n)
        | none => .error "json: cannot unmarshal value into Go value of type int" }

theorem stripJSONSpace_of_null {data : String} (h : data = "null") :
    stripJSONSpace data = "null" := by
  subst h; rfl

theorem read_write_ne (z : T) (m : Mem T) {p q : Nat} (h : p ≠ q) (w : T) :
    Mem.read z (Mem.write m p w) q = Mem.read z m q := by
  simp [Mem.read, Mem.write, List.getElem?_set_ne h]

theorem read_alloc_new (z : T) (m : Mem T) (v : T) :
    Mem.read z (m.alloc v).1 (m.alloc v).2 = v := by
  simp [Mem.read, Mem.alloc, List.getElem?_concat_length]

theorem read_alloc_old (z : T) (m : Mem T) (v : T) {q : Nat}
    (h : q < m.cells.length) :
    Mem.read z (m.alloc v).1 q = Mem.read z m q := by
  simp [Mem.read, Mem.alloc, List.getElem?_append_left h]

/-- C5: `UnmarshalJSON` on a nil receiver is a no-op — it returns a nil
error and mutates nothing (optional.go lines 80-83). -/
theorem unmarshalJSONPtr_nil_receiver_noop (g : GoType T E) (data : String) :
    UnmarshalJSONPtr g none data = (none, none) :=
  rfl

/-- C6: `MarshalJSON` emits the 4-character token `null` when the
container is absent, and exactly the element serializer's output for the
held value when present (optional.go lines 70-75). -/
theorem marshalJSON_absent_null_present_delegates (g : GoType T E)
    (o : Optional T) :
    (o.hasValue = false → MarshalJSON g o = .ok "null") ∧
    (o.hasValue = true → MarshalJSON g o = g.marshal o.value) ∧
    String.length "null" = 4 := by
  refine ⟨fun h => ?_, fun h => ?_, rfl⟩ <;> simp [MarshalJSON, h]

theorem marshalJSON_absent_null_present_delegates_witness :
    MarshalJSON goJSONOptionInt (Empty goJSONOptionInt) = .ok "null" :=
  (marshalJSON_absent_null_present_delegates goJSONOptionInt
    (Empty goJSONOptionInt)).1 rfl

/-- C9: a present container can marshal to the very bytes of the absence
token: `Optional[*int]` holding a nil pointer marshals to `null`, the
same output as an absent container, and unmarshaling that output yields
an absent container, not the present nil pointer. -/
theorem marshal_present_nil_pointer_is_null_token :
    (New (none : Option Int)).hasValue = true ∧
    MarshalJSON goJSONOptionInt (New (none : Option Int)) = .ok "null" ∧
    MarshalJSON goJSONOptionInt (Empty goJSONOptionInt) = .ok "null" ∧
    (UnmarshalJSON goJSONOptionInt (New (none : Option Int)) "null").1.hasValue
      = false :=
  ⟨rfl, rfl, rfl, rfl⟩

/-- C10: `Unset` always yields an absent container with a zeroed slot,
it is idempotent, and on an already-absent container (which, by the
invariant, has a zeroed slot) it is the identity, so every subsequent
query is unchanged (optional.go lines 63-66). -/
theorem unset_absent_noop_and_idempotent (g : GoType T E) (o : Optional T)
    (h1 : o.hasValue = false) (h2 : o.value = g.zero) :
    Unset g o = o ∧
    ∀ o' : Optional T,
      (Unset g o').hasValue = false ∧ (Unset g o').value = g.zero ∧
      Unset g (Unset g o') = Unset g o' := by
  refine ⟨?_, fun o' => ⟨rfl, rfl, rfl⟩⟩
  cases o with
  | mk v hv =>
    simp only [Optional.hasValue] at h1
    simp only [Optional.value] at h2
    simp [Unset, h1, h2]

theorem unset_absent_noop_and_idempotent_witness :
    Unset goJSONOptionInt (Empty goJSONOptionInt) = Empty goJSONOptionInt :=
  (unset_absent_noop_and_idempotent goJSONOptionInt (Empty goJSONOptionInt)
    rfl rfl).1

/-- C3: the absent-implies-zero-slot invariant holds for every
constructor (`New`, `Empty` = the zero-initialized struct, `FromPtr`)
and is preserved by `Set`, `Unset` and `UnmarshalJSON`. -/
theorem absent_implies_zero_invariant (g : GoType T E) :
    (∀ v : T, Inv g (New v)) ∧
    Inv g (Empty g) ∧
    (∀ p : Option T, Inv g (FromPtr g p)) ∧
    (∀ (o : Optional T) (v : T), Inv g (Set o v)) ∧
    (∀ o : Optional T, Inv g (Unset g o)) ∧
    (∀ (o : Optional T) (data : String),
      Inv g o → Inv g (UnmarshalJSON g o data).1) := by
  refine ⟨?_, ?_, ?_, ?_, ?_, ?_⟩
  · intro v h; simp [New] at h
  · intro _; rfl
  · intro p
    cases p with
    | none => intro _; rfl
    | some v => intro h; simp [FromPtr] at h
  · intro o v h; simp [Set] at h
  · intro o _; rfl
  · intro o data h
    unfold UnmarshalJSON
    split
    · intro _; rfl
    · split
      · intro _; rfl
      · cases hu : g.unmarshal data with
        | error e => exact h
        | ok v => intro hv; simp [Set] at hv

theorem absent_implies_zero_invariant_witness :
    Inv goJSONOptionInt
      (UnmarshalJSON goJSONOptionInt (Empty goJSONOptionInt) "x").1 :=
  (absent_implies_zero_invariant goJSONOptionInt).2.2.2.2.2
    (Empty goJSONOptionInt) "x" (fun _ => rfl)

/-- C8: when `UnmarshalJSON` returns an error, the receiver is returned
exactly as it was — neither the presence flag nor the slot is touched on
the error path (optional.go lines 103-106). -/
theorem unmarshalJSON_error_leaves_receiver_unchanged (g : GoType T E)
    (o : Optional T) (data : String) (e : E)
    (h : (UnmarshalJSON g o data).2 = some e) :
    (UnmarshalJSON g o data).1 = o := by
  unfold UnmarshalJSON at h ⊢
  split at h
  · simp at h
  · split at h
    · simp at h
    · rename_i h1 h2
      rw [if_neg h1, if_neg h2]
      cases hu : g.unmarshal data with
      | error e0 => rfl
      | ok v =>
        rw [hu] at h
        exact Option.noConfusion h

theorem unmarshalJSON_error_leaves_receiver_unchanged_witness :
    (UnmarshalJSON goJSONOptionInt (New (some 5)) "x").1 = New (some 5) :=
  unmarshalJSON_error_leaves_receiver_unchanged goJSONOptionInt
    (New (some 5)) "x"
    "json: cannot unmarshal value into Go value of type int" rfl

/-- C4: `UnmarshalJSON` returns an error exactly when the input is
neither the whitespace-stripped absence token nor a valid encoding of
the element type, and the error returned is precisely the one the
element decoder raised, unmodified (optional.go lines 103-106). -/
theorem unmarshalJSON_error_iff (g : GoType T E) (o : Optional T)
    (data : String) :
    ((UnmarshalJSON g o data).2 ≠ none ↔
      stripJSONSpace data ≠ "null" ∧ ∃ e, g.unmarshal data = .error e) ∧
    (∀ e : E, g.unmarshal data = .error e → stripJSONSpace data ≠ "null" →
      (UnmarshalJSON g o data).2 = some e) := by
  unfold UnmarshalJSON
  split
  · rename_i hfast
    have hstrip : stripJSONSpace data = "null" := stripJSONSpace_of_null hfast.2
    refine ⟨?_, ?_⟩
    · simp [hstrip]
    · intro e _ hne; exact absurd hstrip hne
  · split
    · rename_i hstrip
      refine ⟨?_, ?_⟩
      · simp [hstrip]
      · intro e _ hne; exact absurd hstrip hne
    · rename_i hfast hstrip
      cases hu : g.unmarshal data with
      | error e =>
        refine ⟨⟨fun _ => ⟨hstrip, e, rfl⟩, fun _ => by simp⟩, ?_⟩
        intro e0 he0 _
        injection he0 with h1
        subst h1
        rfl
      | ok v =>
        refine ⟨⟨fun hne => absurd rfl hne, ?_⟩, ?_⟩
        · rintro ⟨-, e, he⟩
          simp at he
        · intro e0 he0 _
          simp at he0

theorem unmarshalJSON_error_iff_witness :
    (UnmarshalJSON goJSONOptionInt (Empty goJSONOptionInt) "x").2 ≠ none :=
  (unmarshalJSON_error_iff goJSONOptionInt (Empty goJSONOptionInt) "x").1.mpr
    ⟨by decide, "json: cannot unmarshal value into Go value of type int", rfl⟩

/-- C1 (counterexample): the input `nu ll` has its whitespace in the
middle of the token, so under the claim's leading/trailing reading it is
not the absence token and must be handed to the element decoder (which
rejects it); the code nevertheless treats it as absence, resetting the
container and reporting no error. -/
theorem unmarshalJSON_interior_space_counterexample :
    trimEdgesSpec "nu ll" ≠ "null" ∧
    goJSONOptionInt.unmarshal "nu ll" =
      .error "json: cannot unmarshal value into Go value of type int" ∧
    UnmarshalJSON goJSONOptionInt (New (some 5)) "nu ll" =
      (Unset goJSONOptionInt (New (some 5)), none) :=
  ⟨by decide, rfl, by decide⟩

theorem unmarshalJSON_strip_cases (g : GoType T E) (o : Optional T)
    (data : String) :
    (stripJSONSpace data = "null" →
      UnmarshalJSON g o data = (Unset g o, none)) ∧
    (stripJSONSpace data ≠ "null" →
      UnmarshalJSON g o data =
        match g.unmarshal data with
        | .error e => (o, some e)
        | .ok v => (Set o v, none)) := by
  unfold UnmarshalJSON
  split
  · rename_i hfast
    have hstrip : stripJSONSpace data = "null" := stripJSONSpace_of_null hfast.2
    exact ⟨fun _ => rfl, fun hne => absurd hstrip hne⟩
  · split
    · rename_i hstrip
      exact ⟨fun _ => rfl, fun hne => absurd hstrip hne⟩
    · rename_i hfast hstrip
      exact ⟨fun hs => absurd hs hstrip, fun _ => rfl⟩

/-- C1 (amended): `UnmarshalJSON` treats as absence exactly those inputs
that equal `null` after removing every occurrence of the four whitespace
characters, wherever the whitespace appears in the input (this includes
all inputs with only leading/trailing whitespace around the token);
every other input is handed to the element decoder
(optional.go lines 85-108). -/
theorem unmarshalJSON_absence_iff_strip_all (g : GoType T E)
    (o : Optional T) (data : String) :
    (stripJSONSpace data = "null" →
      UnmarshalJSON g o data = (Unset g o, none)) ∧
    (stripJSONSpace data ≠ "null" →
      UnmarshalJSON g o data =
        match g.unmarshal data with
        | .error e => (o, some e)
        | .ok v => (Set o v, none)) :=
  unmarshalJSON_strip_cases g o data

theorem unmarshalJSON_absence_iff_strip_all_witness :
    UnmarshalJSON goJSONOptionInt (New (some 5)) " null " =
      (Unset goJSONOptionInt (New (some 5)), none) :=
  (unmarshalJSON_absence_iff_strip_all goJSONOptionInt (New (some 5))
    " null ").1 (by decide)

/-- C2: whenever `UnmarshalJSON` succeeds, marshaling the result
reproduces the input up to equivalence: an absence-token input marshals
back to the canonical `null`, and any other successfully decoded input
marshals to the element serializer's output for the decoded value. -/
theorem unmarshalJSON_marshalJSON_roundtrip (g : GoType T E)
    (o : Optional T) (x : String)
    (h : (UnmarshalJSON g o x).2 = none) :
    (stripJSONSpace x = "null" →
      MarshalJSON g (UnmarshalJSON g o x).1 = .ok "null") ∧
    (stripJSONSpace x ≠ "null" →
      ∃ v, g.unmarshal x = .ok v ∧
        (UnmarshalJSON g o x).1 = New v ∧
        MarshalJSON g (UnmarshalJSON g o x).1 = g.marshal v) := by
  have hcase := unmarshalJSON_strip_cases g o x
  by_cases hs : stripJSONSpace x = "null"
  · refine ⟨fun _ => ?_, fun hne => absurd hs hne⟩
    rw [hcase.1 hs]
    rfl
  · refine ⟨fun hs0 => absurd hs0 hs, fun _ => ?_⟩
    have heq := hcase.2 hs
    rw [heq] at h ⊢
    cases hu : g.unmarshal x with
    | error e =>
      rw [hu] at h
      exact Option.noConfusion h
    | ok v =>
      exact ⟨v, rfl, by cases o; rfl, by simp [MarshalJSON, Set]⟩

/-- C7: `ToPtr` returns the nil pointer exactly when the container is
absent; on a present container it returns a non-nil pointer to a fresh
copy whose pointee equals the held value; the fresh cell is distinct
from the container's slot, so writes through the returned pointer never
alter the container's slot and writes to the slot never alter the
pointee (optional.go lines 43-49). -/
theorem toPtr_copy_semantics (g : GoType T E) (o : Optional T) (m : Mem T)
    (s : StoredOptional) (hs : s.slot < m.cells.length) :
    (ToPtr o = none ↔ o.hasValue = false) ∧
    (o.hasValue = true → ToPtr o = some o.value) ∧
    (s.hasValue = false → ToPtrMem g m s = (m, none)) ∧
    (s.hasValue = true →
      ∃ (m' : Mem T) (p : Nat), ToPtrMem g m s = (m', some p) ∧
        p ≠ s.slot ∧
        Mem.read g.zero m' p = Mem.read g.zero m s.slot ∧
        Mem.read g.zero m' s.slot = Mem.read g.zero m s.slot ∧
        ∀ w : T,
          Mem.read g.zero (Mem.write m' p w) s.slot
            = Mem.read g.zero m s.slot ∧
          Mem.read g.zero (Mem.write m' s.slot w) p
            = Mem.read g.zero m' p) := by
  refine ⟨?_, ?_, ?_, ?_⟩
  · cases o with
    | mk v hv => cases hv <;> simp [ToPtr]
  · intro h; simp [ToPtr, h]
  · intro h; simp [ToPtrMem, h]
  · intro h
    have hpne : m.cells.length ≠ s.slot := (Nat.ne_of_lt hs).symm
    refine ⟨(m.alloc (Mem.read g.zero m s.slot)).1, m.cells.length, ?_, hpne,
      ?_, ?_, fun w => ⟨?_, ?_⟩⟩
    · simp [ToPtrMem, h, Mem.alloc]
    · exact read_alloc_new g.zero m (Mem.read g.zero m s.slot)
    · exact read_alloc_old g.zero m (Mem.read g.zero m s.slot) hs
    · rw [read_write_ne g.zero (m.alloc (Mem.read g.zero m s.slot)).1 hpne w]
      exact read_alloc_old g.zero m (Mem.read g.zero m s.slot) hs
    · exact read_write_ne g.zero (m.alloc (Mem.read g.zero m s.slot)).1
        (Ne.symm hpne) w

theorem toPtr_copy_semantics_witness :
    ToPtr (New (some 7 : Option Int)) = some (some 7) :=
  (toPtr_copy_semantics goJSONOptionInt (New (some 7)) ⟨[some 7]⟩ ⟨0, true⟩
    (by decide)).2.1 rfl

theorem unmarshalJSON_marshalJSON_roundtrip_witness :
    MarshalJSON goJSONOptionInt
      (UnmarshalJSON goJSONOptionInt (New (some 3)) " null ").1 = .ok "null" :=
  (unmarshalJSON_marshalJSON_roundtrip goJSONOptionInt (New (some 3))
    " null " rfl).1 (by decide)

end optional
